import Mathlib

/-!
Verification of the `jog_arm` velocity-control core
(`src/jog_arm/include/jog_arm/jog_arm_server.h`) against its
natural-language specification.

C++ `double` values are embedded as rationals (every value the claims
mention is a decimal literal, so the arithmetic is exact); a C++ array
of fixed size is embedded as a tuple; mutation of an object becomes a
function returning the updated object.  Code whose body is not in the
repository (only declared in the header) is modelled from the
specification; each such definition says so in its doc comment.
-/

namespace JogArm

/-- Shallow embedding of class `LowPassFilter` (jog_arm_server.h:148-159).
`prev_msrmts_` is the 3-slot raw-sample history, component `.1` being
index `[0]` (the most recent sample); `prev_filtered_msrmts_` is the
2-slot filtered history, component `.1` being index `[0]` (the most
recently returned filtered value). -/
structure LowPassFilter where
  filter_coeff_ : ℚ := 10
  prev_msrmts_ : ℚ × ℚ × ℚ := (0, 0, 0)
  prev_filtered_msrmts_ : ℚ × ℚ := (0, 0)
deriving Repr, DecidableEq

/-- The divisor `1 + c*c + 1.414*c` appearing in
`LowPassFilter::filter` (jog_arm_server.h:183). -/
def LowPassFilter.denom (c : ℚ) : ℚ := 1 + c * c + 1.414 * c

/-- Shallow embedding of `LowPassFilter::reset` (jog_arm_server.h:166-174):
writes `data` into all three raw-history slots and both
filtered-history slots. -/
def LowPassFilter.reset (f : LowPassFilter) (data : ℚ) : LowPassFilter :=
  { f with prev_msrmts_ := (data, data, data),
           prev_filtered_msrmts_ := (data, data) }

/-- Shallow embedding of `LowPassFilter::filter` (jog_arm_server.h:176-193).
First the raw history is shifted (`[2] := [1]; [1] := [0]; [0] := new`),
then the new filtered value is computed from the shifted raw history and
the old filtered history, then the filtered history is shifted.  Returns
the updated filter state together with the returned value. -/
def LowPassFilter.filter (f : LowPassFilter) (new_msrmt : ℚ) : LowPassFilter × ℚ :=
  let msr0 := new_msrmt
  let msr1 := f.prev_msrmts_.1
  let msr2 := f.prev_msrmts_.2.1
  let c := f.filter_coeff_
  let new_filtered_msrmt :=
    (1 / LowPassFilter.denom c) *
      (msr2 + 2 * msr1 + msr0
        - (c * c - 1.414 * c + 1) * f.prev_filtered_msrmts_.2
        - (-2 * c * c + 2) * f.prev_filtered_msrmts_.1)
  ({ f with prev_msrmts_ := (msr0, msr1, msr2),
            prev_filtered_msrmts_ := (new_filtered_msrmt, f.prev_filtered_msrmts_.1) },
   new_filtered_msrmt)

/-- The filter update formula exactly as the specification's claim words
it: coefficient `(c*c - 1.414*c + 1)` attached to `yn1` (the most
recently returned filtered value) and `(-2*c*c + 2)` attached to `yn2`
(the one before it).  Kept separate from the source embedding so the two
can be compared. -/
def specClaimedFilterFormula (c x xn1 xn2 yn1 yn2 : ℚ) : ℚ :=
  (1 / (1 + c * c + 1.414 * c)) *
    (x + 2 * xn1 + xn2 - (c * c - 1.414 * c + 1) * yn1 - (-2 * c * c + 2) * yn2)

/-- The pure output of one `filter` call as a function of the coefficient,
the stored raw history `msr`, the stored filtered history `fil`, and the
new measurement `x`. -/
def filterOutput (c : ℚ) (msr : ℚ × ℚ × ℚ) (fil : ℚ × ℚ) (x : ℚ) : ℚ :=
  (1 / LowPassFilter.denom c) *
    (msr.2.1 + 2 * msr.1 + x
      - (c * c - 1.414 * c + 1) * fil.2
      - (-2 * c * c + 2) * fil.1)

/-- The divisor `1 + c*c + 1.414*c` is strictly positive for every
coefficient: it equals `(c + 707/1000)^2 + 500151/1000000`. -/
lemma denom_pos (c : ℚ) : 0 < LowPassFilter.denom c := by
  have h := sq_nonneg (c + 707 / 1000)
  unfold LowPassFilter.denom
  nlinarith

/-- A filter whose whole history holds `v` maps the measurement `v` to
`v` and leaves its state unchanged. -/
lemma filter_const (c v : ℚ) :
    LowPassFilter.filter ⟨c, (v, v, v), (v, v)⟩ v = (⟨c, (v, v, v), (v, v)⟩, v) := by
  have hd : LowPassFilter.denom c ≠ 0 := ne_of_gt (denom_pos c)
  unfold LowPassFilter.filter
  have hout :
      (1 / LowPassFilter.denom c) *
        (v + 2 * v + v - (c * c - 1.414 * c + 1) * v - (-2 * c * c + 2) * v) = v := by
    rw [div_mul_eq_mul_div, div_eq_iff hd]
    unfold LowPassFilter.denom
    ring
  simp only [hout]

/-- C1 counterexample: at coefficient `c = 0`, raw history all `0`,
filtered history `y[n-1] = 1`, `y[n-2] = 0` and input `0`, the code
returns `-2` while the formula as the claim states it gives `-1`: the
code attaches `(c*c - 1.414*c + 1)` to `y[n-2]` and `(-2*c*c + 2)` to
`y[n-1]`, the opposite pairing from the claim. -/
theorem filter_differs_from_claimed_formula :
    ((({ filter_coeff_ := 0, prev_msrmts_ := (0, 0, 0),
         prev_filtered_msrmts_ := (1, 0) } : LowPassFilter).filter 0).2
      ≠ specClaimedFilterFormula 0 0 0 0 1 0) := by
  norm_num [LowPassFilter.filter, LowPassFilter.denom, specClaimedFilterFormula]

/-- C1 (amended): for every coefficient, every internal history and
every input, `filter` returns
`k * (x[n] + 2*x[n-1] + x[n-2] - (c*c - 1.414*c + 1) * y[n-2]
      - (-2*c*c + 2) * y[n-1])` with `k = 1 / (1 + c*c + 1.414*c)`:
the `(c*c - 1.414*c + 1)` coefficient multiplies `y[n-2]` and the
`(-2*c*c + 2)` coefficient multiplies `y[n-1]`. -/
theorem filter_eq_formula (f : LowPassFilter) (x : ℚ) :
    (f.filter x).2 =
      (1 / LowPassFilter.denom f.filter_coeff_) *
        (x + 2 * f.prev_msrmts_.1 + f.prev_msrmts_.2.1
          - (f.filter_coeff_ * f.filter_coeff_ - 1.414 * f.filter_coeff_ + 1)
              * f.prev_filtered_msrmts_.2
          - (-2 * f.filter_coeff_ * f.filter_coeff_ + 2)
              * f.prev_filtered_msrmts_.1) := by
  unfold LowPassFilter.filter
  ring_nf

/-- C2: `reset v` writes `v` into all three raw-history slots and both
filtered-history slots; the resulting state is fully determined by the
coefficient and `v`, independent of the prior history. -/
theorem reset_sets_all_slots (f : LowPassFilter) (v : ℚ) :
    f.reset v = { filter_coeff_ := f.filter_coeff_,
                  prev_msrmts_ := (v, v, v),
                  prev_filtered_msrmts_ := (v, v) } := rfl

/-- C3: for every coefficient and every prior state, after `reset 5`
each of the next three `filter 5` calls returns exactly `5`. -/
theorem steady_state_five (f : LowPassFilter) :
    ((f.reset 5).filter 5).2 = 5 ∧
    ((((f.reset 5).filter 5).1).filter 5).2 = 5 ∧
    ((((((f.reset 5).filter 5).1).filter 5).1).filter 5).2 = 5 := by
  have h0 : f.reset 5 = (⟨f.filter_coeff_, (5, 5, 5), (5, 5)⟩ : LowPassFilter) := rfl
  rw [h0, filter_const, filter_const, filter_const]
  exact ⟨rfl, rfl, rfl⟩

/-- C4: `filter` and `reset` are total pure functions: the divisor
`1 + c*c + 1.414*c` is nonzero for every coefficient, the result of
`filter` is exactly determined by the stored history, the coefficient
and the input, and `reset` is exactly determined by the coefficient and
its argument. -/
theorem filter_reset_total_pure (f : LowPassFilter) (x : ℚ) :
    LowPassFilter.denom f.filter_coeff_ ≠ 0 ∧
    f.filter x =
      ({ filter_coeff_ := f.filter_coeff_,
         prev_msrmts_ := (x, f.prev_msrmts_.1, f.prev_msrmts_.2.1),
         prev_filtered_msrmts_ :=
           (filterOutput f.filter_coeff_ f.prev_msrmts_ f.prev_filtered_msrmts_ x,
            f.prev_filtered_msrmts_.1) },
       filterOutput f.filter_coeff_ f.prev_msrmts_ f.prev_filtered_msrmts_ x) ∧
    f.reset x = { filter_coeff_ := f.filter_coeff_,
                  prev_msrmts_ := (x, x, x),
                  prev_filtered_msrmts_ := (x, x) } :=
  ⟨ne_of_gt (denom_pos f.filter_coeff_), rfl, rfl⟩

/-- A joint trajectory point sequence, reduced to the per-joint positions
and velocities the claims talk about. -/
structure Traj where
  positions : List ℚ
  velocities : List ℚ
deriving Repr, DecidableEq

/-- Shallow embedding of struct `jog_arm_shared` (jog_arm_server.h:63-99):
the shared variables with their default member initializers.  Messages
default-construct to empty/zero; `ros::Time(0.)` becomes the rational
`0`.  The mutexes carry no data and are dropped. -/
structure jog_arm_shared where
  command_deltas : List ℚ := []
  joint_command_deltas : List ℚ := []
  joints : List ℚ := []
  collision_velocity_scale : ℚ := 1
  zero_cartesian_cmd_flag : Bool := true
  zero_joint_cmd_flag : Bool := true
  command_is_stale : Bool := false
  new_traj : Traj := ⟨[], []⟩
  incoming_cmd_stamp : ℚ := 0
  ok_to_publish : Bool := false
deriving Repr, DecidableEq

/-- The shared state as initialized, before any message arrives. -/
def initial_shared : jog_arm_shared := {}

/-- C10: at initialization the shared state has
`collision_velocity_scale = 1`, both zero-command flags `true`,
`command_is_stale = false`, `ok_to_publish = false`, and the incoming
command timestamp equal to time `0`. -/
theorem initial_shared_defaults :
    initial_shared.collision_velocity_scale = 1 ∧
    initial_shared.zero_cartesian_cmd_flag = true ∧
    initial_shared.zero_joint_cmd_flag = true ∧
    initial_shared.command_is_stale = false ∧
    initial_shared.ok_to_publish = false ∧
    initial_shared.incoming_cmd_stamp = 0 :=
  ⟨rfl, rfl, rfl, rfl, rfl, rfl⟩

/-- Modelled from the spec: the two-threshold continuous/hard-stop
velocity-scale policy of sections 4.2 and 4.4 (the bodies of
`CollisionCheckThread` and `JogCalcs::decelerateForSingularity` are not
in the repository sources; the header only declares them).  A proximity
at or below the hard-stop threshold gives scale `0`; at or above the
lower threshold gives `1`; in between, scale varies continuously
(linearly) between `0` and `1`. -/
def scaleFromProximity (hard lower d : ℚ) : ℚ :=
  if d ≤ hard then 0
  else if lower ≤ d then 1
  else (d - hard) / (lower - hard)

/-- C5: for all thresholds and every proximity input, the computed scale
factor lies in `[0, 1]`, and a proximity at or below the hard-stop
threshold gives exactly `0`. -/
theorem scaleFactor_in_unit_interval (hard lower d : ℚ) :
    0 ≤ scaleFromProximity hard lower d ∧
    scaleFromProximity hard lower d ≤ 1 ∧
    (d ≤ hard → scaleFromProximity hard lower d = 0) := by
  unfold scaleFromProximity
  split_ifs with h1 h2
  · exact ⟨le_refl 0, by norm_num, fun _ => rfl⟩
  · exact ⟨by norm_num, le_refl 1, fun hc => absurd hc h1⟩
  · push_neg at h1 h2
    refine ⟨div_nonneg (by linarith) (by linarith), ?_, fun hc => absurd hc (not_le.mpr h1)⟩
    rw [div_le_one (by linarith)]
    linarith

/-- C5 witness: concrete thresholds `hard = 1`, `lower = 2` and
proximity `1/2` (below the hard stop), with the inner hypothesis
discharged. -/
theorem scaleFactor_in_unit_interval_witness :
    0 ≤ scaleFromProximity 1 2 (1 / 2) ∧
    scaleFromProximity 1 2 (1 / 2) ≤ 1 ∧
    scaleFromProximity 1 2 (1 / 2) = 0 :=
  ⟨(scaleFactor_in_unit_interval 1 2 (1 / 2)).1,
   (scaleFactor_in_unit_interval 1 2 (1 / 2)).2.1,
   (scaleFactor_in_unit_interval 1 2 (1 / 2)).2.2 (by norm_num)⟩

/-- The halt trajectory at a given joint configuration: hold the current
positions, all velocities zero (declared as `JogCalcs::halt`,
jog_arm_server.h:236; body modelled from the spec). -/
def haltTraj (currentPositions : List ℚ) : Traj :=
  { positions := currentPositions,
    velocities := currentPositions.map (fun _ => 0) }

/-- Modelled from the spec: the per-cycle staleness check of section 4.5
(the body of the calculation loop is not in the repository sources;
`jog_arm_shared::command_is_stale` and `JogCalcs::halt` are only
declared in the header).  If `now - incoming_cmd_stamp` exceeds the
timeout, the cycle marks the command stale, replaces any previously
computed trajectory by the halt trajectory at the last known positions,
and resets every low-pass filter (`JogCalcs::resetVelocityFilters`,
which resets to `0`).  Returns the updated shared state and filters. -/
def staleCheckCycle (timeout now : ℚ) (s : jog_arm_shared)
    (filters : List LowPassFilter) (computedTraj : Traj) :
    jog_arm_shared × List LowPassFilter :=
  if timeout < now - s.incoming_cmd_stamp then
    ({ s with command_is_stale := true, new_traj := haltTraj s.joints },
     filters.map (fun f => f.reset 0))
  else
    ({ s with command_is_stale := false, new_traj := computedTraj }, filters)

/-- C6: in every cycle where `now - incoming_cmd_stamp` exceeds the
timeout, the engine sets the stale flag, emits the halt trajectory
(all velocities `0`, positions the last known positions) regardless of
the previously computed trajectory, and resets all filter history. -/
theorem stale_command_halts (timeout now : ℚ) (s : jog_arm_shared)
    (filters : List LowPassFilter) (computedTraj : Traj)
    (h : now - s.incoming_cmd_stamp > timeout) :
    (staleCheckCycle timeout now s filters computedTraj).1.command_is_stale = true ∧
    (staleCheckCycle timeout now s filters computedTraj).1.new_traj.positions = s.joints ∧
    (∀ v ∈ (staleCheckCycle timeout now s filters computedTraj).1.new_traj.velocities,
      v = 0) ∧
    (staleCheckCycle timeout now s filters computedTraj).2 =
      filters.map (fun f => f.reset 0) := by
  unfold staleCheckCycle
  rw [if_pos h]
  refine ⟨rfl, rfl, ?_, rfl⟩
  intro v hv
  simp only [haltTraj, List.mem_map] at hv
  obtain ⟨_, _, hv⟩ := hv
  exact hv.symm

/-- C6 witness: timeout `1`, now `3`, stamp `0` (stale), one filter and
a nonzero previously computed trajectory. -/
theorem stale_command_halts_witness :
    (staleCheckCycle 1 3 { joints := [4] } [{}] ⟨[9], [9]⟩).1.command_is_stale = true ∧
    (staleCheckCycle 1 3 { joints := [4] } [{}] ⟨[9], [9]⟩).1.new_traj.positions =
      ({ joints := [4] } : jog_arm_shared).joints ∧
    (∀ v ∈ (staleCheckCycle 1 3 { joints := [4] } [{}] ⟨[9], [9]⟩).1.new_traj.velocities,
      v = 0) ∧
    (staleCheckCycle 1 3 { joints := [4] } [{}] ⟨[9], [9]⟩).2 =
      [({} : LowPassFilter)].map (fun f => f.reset 0) :=
  stale_command_halts 1 3 { joints := [4] } [{}] ⟨[9], [9]⟩ (by norm_num)

/-- Modelled from the spec: the singularity part of the velocity-scale
policy of section 4.2 step 4 (the body of
`JogCalcs::decelerateForSingularity` is not in the repository sources).
When the commanded motion moves toward the singularity, the smallest
singular value `sv` of the Jacobian is mapped through the two-threshold
policy (`hard_stop_singularity_threshold`,
`lower_singularity_threshold`); otherwise no scaling is applied. -/
def singularityScale (hard lower sv : ℚ) (movingToward : Bool) : ℚ :=
  if movingToward then scaleFromProximity hard lower sv else 1

/-- Modelled from the spec: the outcome of one Cartesian-path cycle,
reduced to what C7 talks about (section 4.2 step 9 and its side
effects; the bodies of `JogCalcs::cartesianJogCalcs`, `JogCalcs::halt`
and `JogCalcs::publishWarning` are not in the repository sources).  If
the singularity scale or the collision scale is `0` (a hard-stop
condition), the cycle writes the zero-velocity halt trajectory at the
current positions and sets the warning signal; otherwise it writes the
normally computed trajectory and clears the warning signal. -/
def cartesianCycleOutcome (hard lower sv collisionScale : ℚ)
    (movingToward : Bool) (currentPositions : List ℚ) (normalTraj : Traj) :
    Traj × Bool :=
  if singularityScale hard lower sv movingToward = 0 ∨ collisionScale = 0 then
    (haltTraj currentPositions, true)
  else
    (normalTraj, false)

/-- C7: a command whose motion drives the smallest singular value below
the hard-stop singularity threshold makes the cycle emit the
zero-velocity halt trajectory at the current positions with the warning
signal set; a collision hard stop (collision scale `0`) does likewise;
and when no scale-to-zero condition holds the warning signal is
cleared.  The halt trajectory holds the current positions with all
velocities `0`. -/
theorem hard_stop_halts_and_warns (hard lower sv cs : ℚ)
    (pos : List ℚ) (nt : Traj) :
    (sv < hard →
      cartesianCycleOutcome hard lower sv cs true pos nt = (haltTraj pos, true)) ∧
    (cs = 0 →
      cartesianCycleOutcome hard lower sv cs true pos nt = (haltTraj pos, true)) ∧
    (singularityScale hard lower sv true ≠ 0 → cs ≠ 0 →
      (cartesianCycleOutcome hard lower sv cs true pos nt).2 = false) ∧
    (haltTraj pos).positions = pos ∧
    (∀ v ∈ (haltTraj pos).velocities, v = 0) := by
  refine ⟨?_, ?_, ?_, rfl, ?_⟩
  · intro hsv
    have hzero : singularityScale hard lower sv true = 0 := by
      simp only [singularityScale, if_pos, scaleFromProximity]
      rw [if_pos (le_of_lt hsv)]
    unfold cartesianCycleOutcome
    rw [if_pos (Or.inl hzero)]
  · intro hcs
    unfold cartesianCycleOutcome
    rw [if_pos (Or.inr hcs)]
  · intro hs hc
    unfold cartesianCycleOutcome
    rw [if_neg]
    push_neg
    exact ⟨hs, hc⟩
  · intro v hv
    simp only [haltTraj, List.mem_map] at hv
    obtain ⟨_, _, hv⟩ := hv
    exact hv.symm

/-- C7 witness: thresholds `hard = 1`, `lower = 2`; singular value `1/2`
(below the hard stop) halts and warns, singular value `3` with collision
scale `1` clears the warning; collision scale `0` halts and warns. -/
theorem hard_stop_halts_and_warns_witness :
    cartesianCycleOutcome 1 2 (1 / 2) 1 true [4] ⟨[9], [9]⟩ = (haltTraj [4], true) ∧
    cartesianCycleOutcome 1 2 3 0 true [4] ⟨[9], [9]⟩ = (haltTraj [4], true) ∧
    (cartesianCycleOutcome 1 2 3 1 true [4] ⟨[9], [9]⟩).2 = false :=
  ⟨(hard_stop_halts_and_warns 1 2 (1 / 2) 1 [4] ⟨[9], [9]⟩).1 (by norm_num),
   (hard_stop_halts_and_warns 1 2 3 0 [4] ⟨[9], [9]⟩).2.1 rfl,
   (hard_stop_halts_and_warns 1 2 3 1 [4] ⟨[9], [9]⟩).2.2.1
     (by norm_num [singularityScale, scaleFromProximity]) (by norm_num)⟩

/-- Clamp a single velocity component to `[-lim, lim]`. -/
def clampAbs (lim x : ℚ) : ℚ := max (-lim) (min lim x)

/-- Modelled from the spec: `JogCalcs::enforceJointVelocityLimits`
(declared at jog_arm_server.h:227; body not in the repository sources).
Per section 4.2 step 6 / 4.3, each joint's velocity component is clamped
against that joint's configured velocity limit individually, rather than
scaling or halting the whole vector. -/
def enforceJointVelocityLimits (limits : List ℚ) (calculated_joint_vel : List ℚ) :
    List ℚ :=
  List.zipWith clampAbs limits calculated_joint_vel

/-- Clamping one component is idempotent. -/
lemma clampAbs_idem (lim x : ℚ) : clampAbs lim (clampAbs lim x) = clampAbs lim x := by
  unfold clampAbs
  rcases le_total lim (-lim) with h | h
  · rw [max_eq_left (le_trans (min_le_left lim x) h),
        min_eq_left h, max_eq_left h]
  · rcases le_total x lim with hx | hx
    · rw [min_eq_right hx]
      rcases le_total x (-lim) with hx2 | hx2
      · rw [max_eq_left hx2, min_eq_right h, max_self]
      · rw [max_eq_right hx2, min_eq_right hx, max_eq_right hx2]
    · rw [min_eq_left hx, max_eq_right h, min_eq_left (le_refl lim), max_eq_right h]

/-- C9: applying the joint-velocity-limit clamp twice gives the same
result as applying it once, for every limit vector and every increment
vector. -/
theorem enforce_limits_idem (limits v : List ℚ) :
    enforceJointVelocityLimits limits (enforceJointVelocityLimits limits v) =
      enforceJointVelocityLimits limits v := by
  unfold enforceJointVelocityLimits
  induction limits generalizing v with
  | nil => rfl
  | cons lim ls ih =>
    cases v with
    | nil => rfl
    | cons x xs =>
      simp only [List.zipWith_cons_cons, clampAbs_idem, ih]

/-- Modelled from the spec: the joint-path calculation
`JogCalcs::jointJogCalcs` (declared at jog_arm_server.h:213; body not in
the repository sources).  Per section 4.3: scale each commanded joint
delta by the joint gain, clamp against the joint velocity limits,
low-pass filter, and compose the trajectory (integrating onto the
current positions).  It reads the joint state from the shared variables
and never reads the collision velocity scale or any singularity data. -/
def jointJogCalcs (joint_scale : ℚ) (limits : List ℚ)
    (filters : List LowPassFilter) (cmd : List ℚ) (s : jog_arm_shared) : Traj :=
  let scaled := cmd.map (fun d => joint_scale * d)
  let clamped := enforceJointVelocityLimits limits scaled
  let filtered := List.zipWith (fun f v => (LowPassFilter.filter f v).2) filters clamped
  { positions := List.zipWith (fun p v => p + v) s.joints filtered,
    velocities := filtered }

/-- C8: the joint path never consults collision or singularity scaling:
two runs on shared states identical except for the collision velocity
scale produce the same joint-path output trajectory. -/
theorem jointJogCalcs_ignores_collision_scale (joint_scale : ℚ)
    (limits : List ℚ) (filters : List LowPassFilter) (cmd : List ℚ)
    (s : jog_arm_shared) (a b : ℚ) :
    jointJogCalcs joint_scale limits filters cmd
        { s with collision_velocity_scale := a } =
      jointJogCalcs joint_scale limits filters cmd
        { s with collision_velocity_scale := b } := rfl

end JogArm
